import Mathlib

/-!
Verification of the low-stock replenishment engine of the CRM backend
(crm/schema.py, mutation UpdateLowStockProducts, together with the
Product model of crm/models.py).

The embedding models the inventory store as a list of product rows.
The Django Product model (crm/models.py) declares the fields id, name,
price, stock; it declares neither a sku nor a category field, so the
getattr fallback in the mutation always yields the sentinel value and
the hasattr test always fails.  Only the fields the mutation touches
are carried here (id, name, stock).

Effects are made explicit:
  - a fetch failure (the outer try block of mutate catching an
    exception from evaluating the queryset) is an Option String
    argument carrying the exception text;
  - a per-item update failure (the inner try block around the atomic
    update of one product) is a Bool-valued oracle on product ids; a
    failing item raises at the update call, so the row is not touched
    and no outcome is appended, and iteration continues.

The committed loop iterates over the snapshot produced by the filter
(Django caches the queryset at first iteration), threading the store
through each atomic update; refresh_from_db re-reads the row by id.
-/

/-- A product row of the inventory store: crm/models.py declares
id (primary key), name and an integer stock column. -/
structure Product where
  id : Nat
  name : String
  stock : Int
  deriving DecidableEq, Repr

/-- One element of updated_products, mirroring UpdatedProductType in
crm/schema.py (id, name, sku, old_stock, new_stock, category). -/
structure UpdatedProduct where
  id : String
  name : String
  sku : String
  old_stock : Int
  new_stock : Int
  category : Option String
  deriving DecidableEq, Repr

/-- The mutation result type UpdateLowStockProductsResponse of
crm/schema.py. -/
structure UpdateLowStockProductsResponse where
  success : Bool
  message : String
  updated_count : Nat
  updated_products : List UpdatedProduct
  timestamp : String
  deriving DecidableEq, Repr

/-- The queryset Product.objects.filter with stock strictly below the
threshold (schema.py line 216). -/
def low_stock_products (store : List Product) (threshold : Int) : List Product :=
  store.filter fun p => decide (p.stock < threshold)

/-- The record appended on the dry-run path (schema.py lines 223-236):
old stock is the value read from the snapshot, new stock the arithmetic
projection; the sku getattr falls back to the sentinel and the category
hasattr test fails, because the Product model has neither field. -/
def dryRunOutcome (increment_by : Int) (p : Product) : UpdatedProduct :=
  { id := toString p.id
  , name := p.name
  , sku := "N/A"
  , old_stock := p.stock
  , new_stock := p.stock + increment_by
  , category := none }

/-- The atomic store-side update of schema.py line 253: every row whose
id matches gets stock incremented by the delta, other rows untouched. -/
def applyUpdate (store : List Product) (pid : Nat) (increment_by : Int) : List Product :=
  store.map fun q => if q.id = pid then { q with stock := q.stock + increment_by } else q

/-- The re-read of the row by primary key performed by refresh_from_db
(schema.py line 256).  Rows are never deleted in this model, so the
fallback value is unreachable in every run considered below. -/
def refreshStock (store : List Product) (pid : Nat) : Int :=
  match store.find? (fun r => r.id == pid) with
  | some r => r.stock
  | none => 0

/-- Loop state of the committed path: the evolving store plus the
accumulated updated_products_data list and the updated_count counter. -/
structure CommitState where
  store : List Product
  outcomes : List UpdatedProduct
  count : Nat
  deriving Repr

namespace UpdateLowStockProducts

/-- One iteration of the committed loop (schema.py lines 247-276): if
the update call for this product raises, the inner except clause skips
it, leaving state untouched; otherwise capture the old stock from the
snapshot row, apply the atomic increment, re-read the authoritative new
stock, append the outcome record and bump the counter. -/
def commitStep (increment_by : Int) (fails : Nat → Bool)
    (s : CommitState) (p : Product) : CommitState :=
  if fails p.id then s
  else
    let old_stock := p.stock
    let store1 := applyUpdate s.store p.id increment_by
    let newStock := refreshStock store1 p.id
    { store := store1
    , outcomes := s.outcomes ++
        [{ id := toString p.id
         , name := p.name
         , sku := "N/A"
         , old_stock := old_stock
         , new_stock := newStock
         , category := none }]
    , count := s.count + 1 }

/-- The body of UpdateLowStockProducts.mutate (schema.py lines 200-297),
returning the response together with the store as left by the run.
A some value for fetchError plays the exception caught by the outer
except clause; the timestamp is the string captured once at entry. -/
def mutate (store : List Product) (threshold increment_by : Int)
    (dry_run : Bool) (fails : Nat → Bool) (fetchError : Option String)
    (timestamp : String) : UpdateLowStockProductsResponse × List Product :=
  match fetchError with
  | some e =>
      ({ success := false
       , message := "Error updating low-stock products: " ++ e
       , updated_count := 0
       , updated_products := []
       , timestamp := timestamp }, store)
  | none =>
      let low := low_stock_products store threshold
      if dry_run then
        let outs := low.map (dryRunOutcome increment_by)
        ({ success := true
         , message := "Dry run: Would update " ++ toString outs.length ++
             " products below stock threshold " ++ toString threshold
         , updated_count := outs.length
         , updated_products := outs
         , timestamp := timestamp }, store)
      else
        let final := low.foldl (commitStep increment_by fails) ⟨store, [], 0⟩
        let message :=
          if final.count = 0 then "No products found below the stock threshold"
          else "Successfully updated " ++ toString final.count ++ " low-stock products"
        ({ success := true
         , message := message
         , updated_count := final.count
         , updated_products := final.outcomes
         , timestamp := timestamp }, final.store)

end UpdateLowStockProducts

namespace UpdateLowStockProducts

/-- Splitting a list by a Bool predicate partitions its length. -/
theorem length_filter_add_length_filter_not (p : Product → Bool) (l : List Product) :
    (l.filter p).length + (l.filter fun a => !(p a)).length = l.length := by
  induction l with
  | nil => rfl
  | cons a l ih => by_cases h : p a = true <;> simp [List.filter_cons, h] <;> omega

/-- With pairwise distinct ids, the row lookup by the id of a member
returns that member. -/
theorem find?_eq_self_of_nodup_ids (store : List Product) (p : Product)
    (hnd : (store.map Product.id).Nodup) (hp : p ∈ store) :
    store.find? (fun r => r.id == p.id) = some p := by
  induction store with
  | nil => cases hp
  | cons a rest ih =>
      simp only [List.map_cons, List.nodup_cons] at hnd
      rcases List.mem_cons.mp hp with h | h
      · subst h
        simp [List.find?_cons]
      · have hne : a.id ≠ p.id := by
          intro he
          exact hnd.1 (he ▸ (List.mem_map.mpr ⟨p, h, rfl⟩))
        simp [List.find?_cons, hne, ih hnd.2 h]

/-- Unfolding of the atomic update over a cons cell. -/
theorem applyUpdate_cons (a : Product) (rest : List Product) (pid : Nat) (i : Int) :
    applyUpdate (a :: rest) pid i
      = (if a.id = pid then { a with stock := a.stock + i } else a)
          :: applyUpdate rest pid i := rfl

/-- The atomic update rewrites the looked-up row of the same id by
bumping its stock. -/
theorem find?_applyUpdate_self (store : List Product) (pid : Nat) (i : Int)
    (r : Product) (h : store.find? (fun q => q.id == pid) = some r) :
    (applyUpdate store pid i).find? (fun q => q.id == pid)
      = some { r with stock := r.stock + i } := by
  induction store with
  | nil => simp [List.find?] at h
  | cons a rest ih =>
      rw [applyUpdate_cons]
      by_cases ha : a.id = pid
      · simp [List.find?_cons, ha] at h
        subst h
        simp [List.find?_cons, ha]
      · simp [List.find?_cons, ha] at h
        simpa [List.find?_cons, ha] using ih h

/-- The atomic update of one id leaves the lookup of any other id
unchanged. -/
theorem find?_applyUpdate_ne (store : List Product) (pid qid : Nat) (i : Int)
    (h : qid ≠ pid) :
    (applyUpdate store pid i).find? (fun r => r.id == qid)
      = store.find? (fun r => r.id == qid) := by
  induction store with
  | nil => rfl
  | cons a rest ih =>
      rw [applyUpdate_cons]
      by_cases hb : a.id = pid
      · rw [if_pos hb]
        have hq : ¬ pid = qid := fun he => h he.symm
        rw [List.find?_cons_of_neg _ (by simp [hb, hq]),
            List.find?_cons_of_neg _ (by simp [hb, hq]), ih]
      · rw [if_neg hb]
        by_cases ha : a.id = qid
        · rw [List.find?_cons_of_pos _ (by simp [ha]),
              List.find?_cons_of_pos _ (by simp [ha])]
        · rw [List.find?_cons_of_neg _ (by simp [ha]),
              List.find?_cons_of_neg _ (by simp [ha]), ih]

/-- The committed loop increments the counter once per non-failing
eligible product. -/
theorem foldl_commitStep_count (i : Int) (fails : Nat → Bool) :
    ∀ (low : List Product) (acc : CommitState),
      (low.foldl (commitStep i fails) acc).count
        = acc.count + (low.filter fun p => !(fails p.id)).length := by
  intro low
  induction low with
  | nil => intro acc; simp
  | cons p rest ih =>
      intro acc
      cases hf : fails p.id with
      | true => simp [List.foldl_cons, commitStep, hf, ih, List.filter_cons]
      | false =>
          simp [List.foldl_cons, commitStep, hf, ih, List.filter_cons]
          omega

/-- The ids of the outcomes of the committed loop are exactly the
stringified ids of the non-failing eligible products, in order. -/
theorem foldl_commitStep_ids (i : Int) (fails : Nat → Bool) :
    ∀ (low : List Product) (acc : CommitState),
      (low.foldl (commitStep i fails) acc).outcomes.map UpdatedProduct.id
        = acc.outcomes.map UpdatedProduct.id
          ++ (low.filter fun p => !(fails p.id)).map (fun p => toString p.id) := by
  intro low
  induction low with
  | nil => intro acc; simp
  | cons p rest ih =>
      intro acc
      cases hf : fails p.id with
      | true => simp [List.foldl_cons, commitStep, hf, ih, List.filter_cons]
      | false => simp [List.foldl_cons, commitStep, hf, ih, List.filter_cons]

/-- Every outcome appended by the committed loop carries the sentinel
sku and a null category. -/
theorem foldl_commitStep_sentinel (i : Int) (fails : Nat → Bool) :
    ∀ (low : List Product) (acc : CommitState),
      ∀ o ∈ (low.foldl (commitStep i fails) acc).outcomes,
        o ∈ acc.outcomes ∨ (o.sku = "N/A" ∧ o.category = none) := by
  intro low
  induction low with
  | nil => intro acc o ho; exact Or.inl ho
  | cons p rest ih =>
      intro acc o ho
      cases hf : fails p.id with
      | true =>
          rw [List.foldl_cons, commitStep, if_pos hf] at ho
          exact ih acc o ho
      | false =>
          rw [List.foldl_cons, commitStep, if_neg (by simp [hf])] at ho
          rcases ih _ o ho with hmem | hgood
          · rcases List.mem_append.mp hmem with h | h
            · exact Or.inl h
            · simp at h
              exact Or.inr (by simp [h])
          · exact Or.inr hgood

/-- The committed loop keeps the counter equal to the length of the
outcome list. -/
theorem foldl_commitStep_count_eq_length (i : Int) (fails : Nat → Bool) :
    ∀ (low : List Product) (acc : CommitState),
      acc.count = acc.outcomes.length →
      (low.foldl (commitStep i fails) acc).count
        = (low.foldl (commitStep i fails) acc).outcomes.length := by
  intro low
  induction low with
  | nil => intro acc h; simpa using h
  | cons p rest ih =>
      intro acc h
      cases hf : fails p.id with
      | true =>
          rw [List.foldl_cons, commitStep, if_pos hf]
          exact ih acc h
      | false =>
          rw [List.foldl_cons, commitStep, if_neg (by simp [hf])]
          exact ih _ (by simp [h])

/-- Under pairwise distinct ids, every outcome the committed loop
appends records the authoritative post-increment stock, which equals
the captured old stock plus the increment. -/
theorem foldl_commitStep_arith (i : Int) (fails : Nat → Bool) :
    ∀ (low : List Product) (acc : CommitState),
      (∀ p ∈ low, acc.store.find? (fun r => r.id == p.id) = some p) →
      (low.map Product.id).Nodup →
      ∀ o ∈ (low.foldl (commitStep i fails) acc).outcomes,
        o ∈ acc.outcomes ∨ o.new_stock = o.old_stock + i := by
  intro low
  induction low with
  | nil => intro acc _ _ o ho; exact Or.inl ho
  | cons p rest ih =>
      intro acc hfind hnd o ho
      simp only [List.map_cons, List.nodup_cons] at hnd
      cases hf : fails p.id with
      | true =>
          rw [List.foldl_cons, commitStep, if_pos hf] at ho
          exact ih acc (fun q hq => hfind q (List.mem_cons_of_mem p hq)) hnd.2 o ho
      | false =>
          rw [List.foldl_cons, commitStep, if_neg (by simp [hf])] at ho
          have hres : ∀ q ∈ rest,
              (applyUpdate acc.store p.id i).find? (fun r => r.id == q.id) = some q := by
            intro q hq
            have hne : q.id ≠ p.id := by
              intro he
              exact hnd.1 (he ▸ (List.mem_map.mpr ⟨q, hq, rfl⟩))
            rw [find?_applyUpdate_ne acc.store p.id q.id i hne]
            exact hfind q (List.mem_cons_of_mem p hq)
          rcases ih _ hres hnd.2 o ho with hmem | hgood
          · rcases List.mem_append.mp hmem with h | h
            · exact Or.inl h
            · simp only [List.mem_singleton] at h
              refine Or.inr ?_
              have hself := find?_applyUpdate_self acc.store p.id i p
                (hfind p (List.mem_cons_self p rest))
              subst h
              simp [refreshStock, hself]
          · exact Or.inr hgood

/-- Projection of the committed path: the returned outcome list is the
outcome accumulator of the loop. -/
theorem mutate_commit_products (store : List Product) (t i : Int)
    (fails : Nat → Bool) (ts : String) :
    (mutate store t i false fails none ts).1.updated_products
      = ((low_stock_products store t).foldl (commitStep i fails)
          ⟨store, [], 0⟩).outcomes := rfl

/-- Projection of the committed path: the returned count is the counter
of the loop. -/
theorem mutate_commit_count (store : List Product) (t i : Int)
    (fails : Nat → Bool) (ts : String) :
    (mutate store t i false fails none ts).1.updated_count
      = ((low_stock_products store t).foldl (commitStep i fails)
          ⟨store, [], 0⟩).count := rfl

/-- Projection of the committed path: the returned message is the
zero-count notice or the count-bearing success message. -/
theorem mutate_commit_message (store : List Product) (t i : Int)
    (fails : Nat → Bool) (ts : String) :
    (mutate store t i false fails none ts).1.message
      = (if ((low_stock_products store t).foldl (commitStep i fails)
              ⟨store, [], 0⟩).count = 0
         then "No products found below the stock threshold"
         else "Successfully updated "
            ++ toString (((low_stock_products store t).foldl (commitStep i fails)
                ⟨store, [], 0⟩).count)
            ++ " low-stock products") := rfl

/-- A Nodup list of stringified ids forces a Nodup list of ids. -/
theorem nodup_ids_of_nodup_string_ids (store : List Product)
    (h : (store.map fun p => toString p.id).Nodup) :
    (store.map Product.id).Nodup := by
  have he : store.map (fun p => toString p.id)
      = (store.map Product.id).map toString := by
    rw [List.map_map]
    rfl
  rw [he] at h
  exact h.of_map toString

/-- The eligible snapshot inherits Nodup ids from the store. -/
theorem nodup_low_stock_ids (store : List Product) (t : Int)
    (h : (store.map Product.id).Nodup) :
    ((low_stock_products store t).map Product.id).Nodup :=
  ((List.filter_sublist store).map Product.id).nodup h

/-- Membership in the eligible snapshot. -/
theorem mem_low_stock_iff (store : List Product) (t : Int) (p : Product) :
    p ∈ low_stock_products store t ↔ p ∈ store ∧ p.stock < t := by
  simp [low_stock_products, List.mem_filter]

end UpdateLowStockProducts

namespace UpdateLowStockProducts

/-- C3: a dry run leaves every stock value of the store unchanged and
performs no store write, while the response carries success and exactly
one outcome per eligible product, built by the arithmetic projection. -/
theorem dry_run_never_mutates (store : List Product) (t i : Int)
    (fails : Nat → Bool) (fe : Option String) (ts : String) :
    (mutate store t i true fails fe ts).2 = store
    ∧ (mutate store t i true fails none ts).1.success = true
    ∧ (mutate store t i true fails none ts).1.updated_products
        = (low_stock_products store t).map (dryRunOutcome i) := by
  refine ⟨?_, rfl, rfl⟩
  cases fe <;> rfl

/-- C4: when the initial fetch raises, the outer except clause converts
the fault into a returned summary value with success false, a message
embedding the failure cause, zero count and no outcomes; the store is
untouched.  Being a total function, the embedded mutation never raises
past its boundary on any input. -/
theorem engine_failure_returns_value (store : List Product) (t i : Int)
    (dr : Bool) (fails : Nat → Bool) (e ts : String) :
    mutate store t i dr fails (some e) ts
      = ({ success := false
         , message := "Error updating low-stock products: " ++ e
         , updated_count := 0
         , updated_products := []
         , timestamp := ts }, store) := rfl

/-- C7: two consecutive dry runs with no committed write in between
return identical outcome lists and identical counts. -/
theorem dry_run_idempotent (store : List Product) (t i : Int)
    (fails fails2 : Nat → Bool) (fe : Option String) (ts1 ts2 : String) :
    (mutate (mutate store t i true fails fe ts1).2 t i true fails2 fe ts2).1.updated_products
        = (mutate store t i true fails fe ts1).1.updated_products
    ∧ (mutate (mutate store t i true fails fe ts1).2 t i true fails2 fe ts2).1.updated_count
        = (mutate store t i true fails fe ts1).1.updated_count := by
  cases fe <;> exact ⟨rfl, rfl⟩

/-- C9: on every path of the mutation (dry run, committed run with
per-item skips, engine-level failure) the returned updated_count equals
the length of updated_products. -/
theorem count_outcomes_invariant (store : List Product) (t i : Int)
    (dr : Bool) (fails : Nat → Bool) (fe : Option String) (ts : String) :
    (mutate store t i dr fails fe ts).1.updated_count
      = (mutate store t i dr fails fe ts).1.updated_products.length := by
  cases fe with
  | some e => rfl
  | none =>
      cases dr with
      | true => rfl
      | false =>
          exact foldl_commitStep_count_eq_length i fails
            (low_stock_products store t) ⟨store, [], 0⟩ rfl

/-- C10: because the Product model declares neither a sku nor a
category field, every outcome of the mutation, in dry-run and committed
modes alike, has the sentinel sku and a null category. -/
theorem sentinel_fields_constant (store : List Product) (t i : Int)
    (dr : Bool) (fails : Nat → Bool) (fe : Option String) (ts : String) :
    ∀ o ∈ (mutate store t i dr fails fe ts).1.updated_products,
      o.sku = "N/A" ∧ o.category = none := by
  cases fe with
  | some e => intro o ho; cases ho
  | none =>
      cases dr with
      | true =>
          intro o ho
          have he : (mutate store t i true fails none ts).1.updated_products
              = (low_stock_products store t).map (dryRunOutcome i) := rfl
          rw [he] at ho
          rcases List.mem_map.mp ho with ⟨p, _, rfl⟩
          exact ⟨rfl, rfl⟩
      | false =>
          intro o ho
          rw [mutate_commit_products] at ho
          rcases foldl_commitStep_sentinel i fails _ _ o ho with hmem | hgood
          · cases hmem
          · exact hgood

/-- C10 witness: on a concrete one-product store the dry-run outcome
carries the sentinel fields. -/
theorem sentinel_fields_constant_witness :
    (dryRunOutcome 7 ⟨1, "A", 5⟩).sku = "N/A"
    ∧ (dryRunOutcome 7 ⟨1, "A", 5⟩).category = none :=
  sentinel_fields_constant [⟨1, "A", 5⟩] 10 7 true (fun _ => false) none "ts"
    (dryRunOutcome 7 ⟨1, "A", 5⟩) (by decide)

/-- C6: with non-negative stored stocks a committed run at threshold 0
finds an empty eligible set and returns count 0 with the fixed
zero-count notice, while any committed run with a non-zero count
carries the count-bearing success message instead. -/
theorem zero_count_messaging (store : List Product) (t i : Int)
    (fails : Nat → Bool) (ts : String)
    (hnn : ∀ p ∈ store, 0 ≤ p.stock) :
    (mutate store 0 i false fails none ts).1.updated_count = 0
    ∧ (mutate store 0 i false fails none ts).1.message
        = "No products found below the stock threshold"
    ∧ ((mutate store t i false fails none ts).1.updated_count ≠ 0 →
        (mutate store t i false fails none ts).1.message
          = "Successfully updated "
              ++ toString ((mutate store t i false fails none ts).1.updated_count)
              ++ " low-stock products") := by
  have hlow : low_stock_products store 0 = [] := by
    rw [low_stock_products, List.filter_eq_nil_iff]
    intro p hp
    simp only [decide_eq_true_eq]
    exact not_lt.mpr (hnn p hp)
  refine ⟨?_, ?_, ?_⟩
  · rw [mutate_commit_count, hlow]
    rfl
  · rw [mutate_commit_message, hlow]
    rfl
  · intro hne
    rw [mutate_commit_count] at hne
    rw [mutate_commit_message, mutate_commit_count, if_neg hne]

/-- C6 witness: a concrete store with positive stocks. -/
theorem zero_count_messaging_witness :
    (mutate [⟨1, "A", 5⟩] 0 10 false (fun _ => false) none "ts").1.updated_count = 0
    ∧ (mutate [⟨1, "A", 5⟩] 0 10 false (fun _ => false) none "ts").1.message
        = "No products found below the stock threshold"
    ∧ ((mutate [⟨1, "A", 5⟩] 10 10 false (fun _ => false) none "ts").1.updated_count ≠ 0 →
        (mutate [⟨1, "A", 5⟩] 10 10 false (fun _ => false) none "ts").1.message
          = "Successfully updated "
              ++ toString ((mutate [⟨1, "A", 5⟩] 10 10 false (fun _ => false) none "ts").1.updated_count)
              ++ " low-stock products") :=
  zero_count_messaging [⟨1, "A", 5⟩] 10 10 (fun _ => false) "ts" (by decide)

/-- C2: under pairwise distinct product ids, every outcome of the run
satisfies new stock = old stock + increment, in dry-run mode as the
arithmetic projection and in committed mode as the store-confirmed
post-increment value; an increment of zero gives old = new. -/
theorem arithmetic_correctness (store : List Product) (t i : Int)
    (dr : Bool) (fails : Nat → Bool) (ts : String)
    (hids : (store.map fun p => toString p.id).Nodup) :
    (∀ o ∈ (mutate store t i dr fails none ts).1.updated_products,
        o.new_stock = o.old_stock + i)
    ∧ (i = 0 → ∀ o ∈ (mutate store t i dr fails none ts).1.updated_products,
        o.new_stock = o.old_stock) := by
  have hnat : (store.map Product.id).Nodup := nodup_ids_of_nodup_string_ids store hids
  have main : ∀ o ∈ (mutate store t i dr fails none ts).1.updated_products,
      o.new_stock = o.old_stock + i := by
    cases dr with
    | true =>
        intro o ho
        have he : (mutate store t i true fails none ts).1.updated_products
            = (low_stock_products store t).map (dryRunOutcome i) := rfl
        rw [he] at ho
        rcases List.mem_map.mp ho with ⟨p, _, rfl⟩
        rfl
    | false =>
        intro o ho
        rw [mutate_commit_products] at ho
        have hfind : ∀ p ∈ low_stock_products store t,
            (CommitState.mk store [] 0).store.find? (fun r => r.id == p.id) = some p := by
          intro p hp
          exact find?_eq_self_of_nodup_ids store p hnat (List.mem_of_mem_filter hp)
        rcases foldl_commitStep_arith i fails (low_stock_products store t)
            ⟨store, [], 0⟩ hfind (nodup_low_stock_ids store t hnat) o ho with hmem | hgood
        · cases hmem
        · exact hgood
  refine ⟨main, ?_⟩
  intro h0 o ho
  rw [main o ho, h0, add_zero]

/-- C2 witness: the committed outcome of a concrete two-product store
confirms old + increment. -/
theorem arithmetic_correctness_witness :
    (⟨"1", "A", "N/A", 5, 12, none⟩ : UpdatedProduct).new_stock
      = (⟨"1", "A", "N/A", 5, 12, none⟩ : UpdatedProduct).old_stock + 7 :=
  (arithmetic_correctness [⟨1, "A", 5⟩, ⟨2, "B", 12⟩] 10 7 false
      (fun _ => false) "ts" (by decide)).1
    ⟨"1", "A", "N/A", 5, 12, none⟩ (by decide)

/-- C1: under pairwise distinct product ids and no per-item failure, a
product of the store appears among the outcomes, in dry-run and
committed modes alike, exactly when its pre-run stock is strictly below
the threshold. -/
theorem eligibility_correctness (store : List Product) (t i : Int)
    (dr : Bool) (ts : String)
    (hids : (store.map fun p => toString p.id).Nodup)
    (p : Product) (hp : p ∈ store) :
    (∃ o ∈ (mutate store t i dr (fun _ => false) none ts).1.updated_products,
        o.id = toString p.id) ↔ p.stock < t := by
  have key : ∀ l : List UpdatedProduct,
      l.map UpdatedProduct.id
          = (low_stock_products store t).map (fun q => toString q.id) →
      ((∃ o ∈ l, o.id = toString p.id) ↔ p.stock < t) := by
    intro l hl
    constructor
    · rintro ⟨o, ho, hoid⟩
      have hmem : o.id ∈ l.map UpdatedProduct.id := List.mem_map.mpr ⟨o, ho, rfl⟩
      rw [hl] at hmem
      rcases List.mem_map.mp hmem with ⟨q, hq, hqe⟩
      have hq2 : q ∈ store ∧ q.stock < t := (mem_low_stock_iff store t q).mp hq
      have hqp : q = p :=
        List.inj_on_of_nodup_map hids hq2.1 hp (by rw [hqe, hoid])
      exact hqp ▸ hq2.2
    · intro hlt
      have hpl : p ∈ low_stock_products store t :=
        (mem_low_stock_iff store t p).mpr ⟨hp, hlt⟩
      have hmem : toString p.id ∈ l.map UpdatedProduct.id := by
        rw [hl]
        exact List.mem_map.mpr ⟨p, hpl, rfl⟩
      rcases List.mem_map.mp hmem with ⟨o, ho, hoe⟩
      exact ⟨o, ho, hoe⟩
  cases dr with
  | true =>
      refine key _ ?_
      have he : (mutate store t i true (fun _ => false) none ts).1.updated_products
          = (low_stock_products store t).map (dryRunOutcome i) := rfl
      rw [he, List.map_map]
      rfl
  | false =>
      refine key _ ?_
      rw [mutate_commit_products,
          foldl_commitStep_ids i (fun _ => false) (low_stock_products store t)
            ⟨store, [], 0⟩]
      simp

/-- C1 witness: on a concrete store the single product with stock 5
appears among the committed outcomes for threshold 10. -/
theorem eligibility_correctness_witness :
    (∃ o ∈ (mutate [⟨1, "A", 5⟩] 10 7 false (fun _ => false) none "ts").1.updated_products,
        o.id = toString (1 : Nat)) ↔ (5 : Int) < 10 :=
  eligibility_correctness [⟨1, "A", 5⟩] 10 7 false "ts" (by decide)
    ⟨1, "A", 5⟩ (by decide)

/-- C5: in committed mode, when exactly one eligible product is made to
fail, the run still succeeds, processes the remaining eligible
products, reports one fewer than the eligible count, and the failing
product is absent from the outcomes. -/
theorem per_item_failure_isolation (store : List Product) (t i : Int)
    (fails : Nat → Bool) (ts : String)
    (hids : (store.map fun p => toString p.id).Nodup)
    (pf : Product) (hpf : pf ∈ low_stock_products store t)
    (hfail : fails pf.id = true)
    (hone : ((low_stock_products store t).filter fun p => fails p.id).length = 1) :
    (mutate store t i false fails none ts).1.success = true
    ∧ (mutate store t i false fails none ts).1.updated_count
        = (low_stock_products store t).length - 1
    ∧ ∀ o ∈ (mutate store t i false fails none ts).1.updated_products,
        o.id ≠ toString pf.id := by
  refine ⟨rfl, ?_, ?_⟩
  · rw [mutate_commit_count,
        foldl_commitStep_count i fails (low_stock_products store t) ⟨store, [], 0⟩]
    have h0 : (CommitState.mk store [] 0).count = 0 := rfl
    rw [h0]
    have hsplit := length_filter_add_length_filter_not
      (fun p => fails p.id) (low_stock_products store t)
    omega
  · intro o ho he
    rw [mutate_commit_products] at ho
    have hmem : o.id ∈ ((low_stock_products store t).foldl (commitStep i fails)
        ⟨store, [], 0⟩).outcomes.map UpdatedProduct.id :=
      List.mem_map.mpr ⟨o, ho, rfl⟩
    rw [foldl_commitStep_ids i fails (low_stock_products store t) ⟨store, [], 0⟩] at hmem
    simp only [List.map_nil, List.nil_append] at hmem
    rcases List.mem_map.mp hmem with ⟨q, hq, hqe⟩
    have hq1 : q ∈ low_stock_products store t := List.mem_of_mem_filter hq
    have hq2 : (!(fails q.id)) = true := (List.mem_filter.mp hq).2
    have hqp : q = pf :=
      List.inj_on_of_nodup_map hids (List.mem_of_mem_filter hq1)
        (List.mem_of_mem_filter hpf) (by rw [hqe, he])
    rw [hqp, hfail] at hq2
    cases hq2

/-- C5 witness: three products, two eligible, the update of product 3
forced to fail; the run succeeds with one outcome and excludes id 3. -/
theorem per_item_failure_isolation_witness :
    (mutate [⟨1, "A", 5⟩, ⟨2, "B", 12⟩, ⟨3, "C", 3⟩] 10 10 false
        (fun n => n == 3) none "ts").1.success = true
    ∧ (mutate [⟨1, "A", 5⟩, ⟨2, "B", 12⟩, ⟨3, "C", 3⟩] 10 10 false
        (fun n => n == 3) none "ts").1.updated_count
        = (low_stock_products [⟨1, "A", 5⟩, ⟨2, "B", 12⟩, ⟨3, "C", 3⟩] 10).length - 1
    ∧ ∀ o ∈ (mutate [⟨1, "A", 5⟩, ⟨2, "B", 12⟩, ⟨3, "C", 3⟩] 10 10 false
        (fun n => n == 3) none "ts").1.updated_products,
        o.id ≠ toString (3 : Nat) :=
  per_item_failure_isolation [⟨1, "A", 5⟩, ⟨2, "B", 12⟩, ⟨3, "C", 3⟩] 10 10
    (fun n => n == 3) "ts" (by decide) ⟨3, "C", 3⟩ (by decide) (by decide) (by decide)

/-- C8 counterexample: a committed call with threshold minus one on a
one-product store with stock 5 is not rejected as caller error: it is
evaluated as an ordinary run that reports success with the zero-count
notice instead of a descriptive failure. -/
theorem negative_threshold_not_rejected :
    (mutate [⟨1, "Widget", 5⟩] (-1) 10 false (fun _ => false) none "ts").1.success = true
    ∧ (mutate [⟨1, "Widget", 5⟩] (-1) 10 false (fun _ => false) none "ts").1.message
        = "No products found below the stock threshold" :=
  ⟨rfl, rfl⟩

/-- C8 amended: a negative threshold is silently normalized, not
rejected: with non-negative stored stocks the eligible set is empty and
the committed run returns success with zero count, no outcomes and the
zero-count notice. -/
theorem negative_threshold_normalized (store : List Product) (t i : Int)
    (fails : Nat → Bool) (ts : String)
    (ht : t < 0) (hnn : ∀ p ∈ store, 0 ≤ p.stock) :
    (mutate store t i false fails none ts).1.success = true
    ∧ (mutate store t i false fails none ts).1.updated_count = 0
    ∧ (mutate store t i false fails none ts).1.updated_products = []
    ∧ (mutate store t i false fails none ts).1.message
        = "No products found below the stock threshold" := by
  have hlow : low_stock_products store t = [] := by
    rw [low_stock_products, List.filter_eq_nil_iff]
    intro p hp
    simp only [decide_eq_true_eq]
    have := hnn p hp
    omega
  refine ⟨rfl, ?_, ?_, ?_⟩
  · rw [mutate_commit_count, hlow]
    rfl
  · rw [mutate_commit_products, hlow]
    rfl
  · rw [mutate_commit_message, hlow]
    rfl

/-- C8 amended witness: the concrete one-product store at threshold
minus one. -/
theorem negative_threshold_normalized_witness :
    (mutate [⟨1, "Widget", 5⟩] (-1) 10 false (fun _ => false) none "ts").1.success = true
    ∧ (mutate [⟨1, "Widget", 5⟩] (-1) 10 false (fun _ => false) none "ts").1.updated_count = 0
    ∧ (mutate [⟨1, "Widget", 5⟩] (-1) 10 false (fun _ => false) none "ts").1.updated_products = []
    ∧ (mutate [⟨1, "Widget", 5⟩] (-1) 10 false (fun _ => false) none "ts").1.message
        = "No products found below the stock threshold" :=
  negative_threshold_normalized [⟨1, "Widget", 5⟩] (-1) 10 (fun _ => false) "ts"
    (by decide) (by decide)

end UpdateLowStockProducts

example :
    (UpdateLowStockProducts.mutate
      [⟨1, "A", 5⟩, ⟨2, "B", 12⟩, ⟨3, "C", 3⟩] 10 10 false
      (fun _ => false) none "ts").1.updated_count = 2 := by decide

example :
    (UpdateLowStockProducts.mutate
      [⟨1, "A", 5⟩, ⟨2, "B", 12⟩, ⟨3, "C", 3⟩] 10 10 false
      (fun _ => false) none "ts").2 =
      [⟨1, "A", 15⟩, ⟨2, "B", 12⟩, ⟨3, "C", 13⟩] := by decide

example :
    (UpdateLowStockProducts.mutate
      [⟨1, "A", 5⟩, ⟨2, "B", 12⟩] 10 7 false
      (fun _ => false) none "ts").1.updated_products =
      [⟨"1", "A", "N/A", 5, 12, none⟩] := by decide
